import Mathlib

/-!
Shallow embedding of the FlashTrade decision core (risk gate, backtest
broker, Turtle strategy, walk-forward engine, metrics) together with
theorems that settle the specification claims against the code.

Conventions of the embedding:
- Money is `Int` cents, matching the Python `int` cents convention.
- Python `float` intermediates are modelled as exact rationals `ℚ`;
  Python `int(x)` (truncation toward zero) is `pytrunc`.
- Timestamps are `Int` seconds since the epoch; `timedelta(minutes=m)`
  is `m * 60` seconds.
- The Redis store is modelled explicitly: the manager carries an
  in-memory `RiskState` and the durable store `RiskState`; `_load_state`
  copies store to memory, `_save_state` copies memory to store.
-/

set_option allowUnsafeReducibility true
attribute [local semireducible] Rat.add Rat.mul Rat.inv Rat.sub Rat.neg Rat.div
set_option maxRecDepth 40000

/-- Python `int(x)` applied to a real/float value: truncation toward zero. -/
def pytrunc (x : ℚ) : ℤ := if 0 ≤ x then ⌊x⌋ else ⌈x⌉

namespace FlashTrade

/-- Risk-limit configuration, `app/config.py` `Settings` defaults. -/
structure Settings where
  max_position_size_cents : ℤ := 10000
  max_daily_drawdown_pct : ℚ := 5
  max_per_trade_risk_pct : ℚ := 2
  circuit_breaker_consecutive_losses : ℕ := 3
  circuit_breaker_pause_minutes : ℤ := 60
deriving Repr, DecidableEq

/-- The default settings instance (`settings = Settings()`). -/
def settings : Settings := {}

/-- Proposed order evaluated by the risk manager (`Order` dataclass). -/
structure Order where
  symbol : String
  market : String
  side : String
  order_type : String
  quantity_cents : ℤ
  price_cents : ℤ
  stop_loss_cents : ℤ
  strategy : String
  reason : String
deriving Repr, DecidableEq

/-- Result of risk evaluation (`RiskVerdict` dataclass). -/
structure RiskVerdict where
  approved : Bool
  reason : String
  adjusted_quantity_cents : Option ℤ := none
deriving Repr, DecidableEq

/-- The durable risk-state quintuple persisted to Redis
(`_save_state` / `_load_state`). `paused_until` is seconds since epoch. -/
structure RiskState where
  halted : Bool := false
  halt_reason : String := ""
  consecutive_losses : ℕ := 0
  daily_pnl_cents : ℤ := 0
  paused_until : Option ℤ := none
deriving Repr, DecidableEq

/-- A `RiskManager` instance together with the Redis store:
`mem` is the in-process state, `store` the durable copy,
`portfolio_value_cents` lives only in memory (never persisted). -/
structure RiskManager where
  mem : RiskState := {}
  portfolio_value_cents : ℤ := 1000000
  store : RiskState := {}
deriving Repr, DecidableEq

namespace RiskManager

/-- `_load_state`: overwrite memory with the store contents. -/
def loadState (rm : RiskManager) : RiskManager := { rm with mem := rm.store }

/-- `_save_state`: persist the in-memory quintuple to the store. -/
def saveState (rm : RiskManager) : RiskManager := { rm with store := rm.mem }

/-- The `is_paused` property: returns whether the circuit-breaker pause is
active at time `now`, and clears an elapsed pause (resetting the
consecutive-loss counter) as a side effect, exactly as the source does. -/
def isPausedStep (now : ℤ) (s : RiskState) : Bool × RiskState :=
  match s.paused_until with
  | none => (false, s)
  | some t =>
      if now ≥ t then
        (false, { s with paused_until := none, consecutive_losses := 0 })
      else
        (true, s)

/-- The per-trade risk of an order:
`int(quantity * abs(price - stop) / price)` when `price > 0`,
else the raw quantity. -/
def riskPerTradeCents (order : Order) : ℤ :=
  if order.price_cents > 0 then
    pytrunc ((order.quantity_cents : ℚ) *
      (|((order.price_cents : ℚ)) - (order.stop_loss_cents : ℚ)| / (order.price_cents : ℚ)))
  else order.quantity_cents

/-- `int(portfolio * max_per_trade_risk_pct / 100)`. -/
def maxRiskCents (cfg : Settings) (portfolio : ℤ) : ℤ :=
  pytrunc ((portfolio : ℚ) * cfg.max_per_trade_risk_pct / 100)

/-- `int(portfolio * max_daily_drawdown_pct / 100)`. -/
def maxDailyLossCents (cfg : Settings) (portfolio : ℤ) : ℤ :=
  pytrunc ((portfolio : ℚ) * cfg.max_daily_drawdown_pct / 100)

/-- `RiskManager.evaluate`: re-load state from the store, then apply the
rule chain; the daily-drawdown breach sets the halt flag in memory.
Note the source never calls `_save_state` inside `evaluate`. -/
def evaluate (cfg : Settings) (now : ℤ) (order : Order) (rm : RiskManager) :
    RiskVerdict × RiskManager :=
  let rm := loadState rm
  let m := rm.mem
  if m.halted then
    ({ approved := false, reason := "Trading halted: " ++ m.halt_reason }, rm)
  else
    let (paused, m) := isPausedStep now m
    let rm := { rm with mem := m }
    if paused then
      -- here `paused_until` is necessarily `some t` with `now < t`
      let t := m.paused_until.getD 0
      let minutes := ((t - now) % 86400) / 60
      ({ approved := false,
         reason := "Circuit breaker active. Resuming in " ++ toString minutes ++ "m" }, rm)
    else if order.stop_loss_cents ≤ 0 then
      ({ approved := false, reason := "Order rejected: stop-loss is mandatory" }, rm)
    else if order.quantity_cents > cfg.max_position_size_cents then
      ({ approved := false,
         reason := "Position size " ++ toString order.quantity_cents ++
           " cents exceeds max " ++ toString cfg.max_position_size_cents ++ " cents" }, rm)
    else
      let risk_per_trade_cents := riskPerTradeCents order
      let max_risk_cents := maxRiskCents cfg rm.portfolio_value_cents
      if risk_per_trade_cents > max_risk_cents then
        ({ approved := false,
           reason := "Per-trade risk " ++ toString risk_per_trade_cents ++
             " cents exceeds max " ++ toString max_risk_cents ++ " cents" }, rm)
      else
        let max_daily_loss_cents := maxDailyLossCents cfg rm.portfolio_value_cents
        if |m.daily_pnl_cents| ≥ max_daily_loss_cents ∧ m.daily_pnl_cents < 0 then
          let reason := "Daily drawdown limit hit: " ++ toString m.daily_pnl_cents ++
            " cents (max " ++ toString max_daily_loss_cents ++ " cents)"
          ({ approved := false, reason := reason },
           { rm with mem := { m with halted := true, halt_reason := reason } })
        else
          ({ approved := true, reason := "All risk checks passed" }, rm)

/-- `record_trade_result`: update daily P&L and the consecutive-loss
counter, possibly arm the circuit-breaker pause, then persist. -/
def recordTradeResult (cfg : Settings) (now : ℤ) (pnl_cents : ℤ)
    (rm : RiskManager) : RiskManager :=
  let m := rm.mem
  let m := { m with daily_pnl_cents := m.daily_pnl_cents + pnl_cents }
  let m :=
    if pnl_cents < 0 then
      let m := { m with consecutive_losses := m.consecutive_losses + 1 }
      if m.consecutive_losses ≥ cfg.circuit_breaker_consecutive_losses then
        { m with paused_until := some (now + cfg.circuit_breaker_pause_minutes * 60) }
      else m
    else { m with consecutive_losses := 0 }
  saveState { rm with mem := m }

/-- `kill_switch`: halt and persist. -/
def killSwitch (rm : RiskManager) : RiskManager :=
  saveState { rm with mem :=
    { rm.mem with halted := true, halt_reason := "Kill switch activated manually" } }

/-- `reset_halt`: clear the halt and the loss counter, then persist. -/
def resetHalt (rm : RiskManager) : RiskManager :=
  saveState { rm with mem :=
    { rm.mem with halted := false, halt_reason := "", consecutive_losses := 0 } }

/-- `reset_daily_pnl`: zero the daily P&L, then persist. -/
def resetDailyPnl (rm : RiskManager) : RiskManager :=
  saveState { rm with mem := { rm.mem with daily_pnl_cents := 0 } }

/-- `set_portfolio_value`: memory-only update, never persisted. -/
def setPortfolioValue (v : ℤ) (rm : RiskManager) : RiskManager :=
  { rm with portfolio_value_cents := v }

/-- `is_halted` property (reads process memory). -/
def isHalted (rm : RiskManager) : Bool := rm.mem.halted

end RiskManager

/-- One call into the risk manager other than `reset_halt`. -/
inductive RiskOp where
  | evalOp (now : ℤ) (o : Order)
  | recordOp (now : ℤ) (pnl : ℤ)
  | killOp
  | resetDailyOp
  | setPortfolioOp (v : ℤ)
deriving Repr, DecidableEq

namespace RiskOp

/-- Apply one call (the verdict of an `evaluate` is discarded). -/
def apply (cfg : Settings) : RiskOp → RiskManager → RiskManager
  | evalOp now o, rm => (RiskManager.evaluate cfg now o rm).2
  | recordOp now pnl, rm => RiskManager.recordTradeResult cfg now pnl rm
  | killOp, rm => RiskManager.killSwitch rm
  | resetDailyOp, rm => RiskManager.resetDailyPnl rm
  | setPortfolioOp v, rm => RiskManager.setPortfolioValue v rm

/-- Run a call sequence left to right. -/
def runOps (cfg : Settings) : List RiskOp → RiskManager → RiskManager
  | [], rm => rm
  | op :: rest, rm => runOps cfg rest (apply cfg op rm)

/-- The verdicts returned by the `evaluate` calls of a sequence. -/
def verdicts (cfg : Settings) : List RiskOp → RiskManager → List RiskVerdict
  | [], _ => []
  | evalOp now o :: rest, rm =>
      (RiskManager.evaluate cfg now o rm).1 :: verdicts cfg rest (apply cfg (evalOp now o) rm)
  | op :: rest, rm => verdicts cfg rest (apply cfg op rm)

end RiskOp

/-- The five rejection guards listed by the spec (halted, circuit-paused,
missing stop, position-size cap, per-trade-risk cap), written exactly as
the guards of `RiskManager.evaluate` evaluate them on the loaded state. -/
def listedRejection (cfg : Settings) (now : ℤ) (o : Order) (rm : RiskManager) : Prop :=
  let L := rm.store
  L.halted = true
  ∨ (L.halted = false ∧ (RiskManager.isPausedStep now L).1 = true)
  ∨ (L.halted = false ∧ (RiskManager.isPausedStep now L).1 = false ∧
      o.stop_loss_cents ≤ 0)
  ∨ (L.halted = false ∧ (RiskManager.isPausedStep now L).1 = false ∧
      ¬ o.stop_loss_cents ≤ 0 ∧ o.quantity_cents > cfg.max_position_size_cents)
  ∨ (L.halted = false ∧ (RiskManager.isPausedStep now L).1 = false ∧
      ¬ o.stop_loss_cents ≤ 0 ∧ ¬ o.quantity_cents > cfg.max_position_size_cents ∧
      RiskManager.riskPerTradeCents o > RiskManager.maxRiskCents cfg rm.portfolio_value_cents)

instance (cfg : Settings) (now : ℤ) (o : Order) (rm : RiskManager) :
    Decidable (listedRejection cfg now o rm) := by
  unfold listedRejection; infer_instance

/-- The valid sample order used by the risk-manager tests
(`make_order()` defaults in `tests/test_risk_manager.py`). -/
def sampleOrder : Order :=
  { symbol := "AAPL", market := "us", side := "buy", order_type := "market",
    quantity_cents := 5000, price_cents := 15000, stop_loss_cents := 14250,
    strategy := "momentum", reason := "RSI crossover signal" }

/-- A fresh manager (constructor state with Redis empty). -/
def freshRM : RiskManager := {}

/-- The manager after recording a 50000-cent loss on a fresh instance:
`daily_pnl_cents = -50000` both in memory and in the store. -/
def rmAfterLoss : RiskManager := RiskManager.recordTradeResult settings 0 (-50000) freshRM

/-- The evaluation that trips the daily-drawdown halt on `rmAfterLoss`. -/
def drawdownEval : RiskVerdict × RiskManager :=
  RiskManager.evaluate settings 10 sampleOrder rmAfterLoss

/-- `sampleOrder` with the mandatory stop-loss zeroed out. -/
def stopZeroOrder : Order := { sampleOrder with stop_loss_cents := 0 }

/-- The manager after three consecutive 100-cent losses recorded at time 0:
the circuit breaker is armed with `paused_until = some 3600`. -/
def rmPaused : RiskManager :=
  RiskOp.runOps settings
    [RiskOp.recordOp 0 (-100), RiskOp.recordOp 0 (-100), RiskOp.recordOp 0 (-100)] freshRM

/-! ### Backtest broker (`app/services/backtest/broker.py`) -/

/-- Modelled from the spec: the `Signal` dataclass of
`app/services/strategy/base.py`, which is not among the provided sources
(only its callers are). Fields follow the spec data model — symbol,
market, action in buy/sell, strength in [0,1], price, stop_loss,
strategy_name, reason — plus `data_quantity_cents`, the
`indicator_data["quantity_cents"]` entry that the engine writes during
position sizing and the broker reads back (other `indicator_data`
entries are never read by the embedded code). -/
structure Signal where
  symbol : String
  market : String
  action : String
  strength : ℚ
  stop_loss_cents : ℤ
  price_cents : ℤ
  reason : String
  strategy_name : String
  data_quantity_cents : Option ℤ := none
deriving Repr, DecidableEq

/-- One-way fee rates per market (`FEE_RATES` dict). -/
def FEE_RATES (market : String) : Option ℚ :=
  if market = "crypto" then some (4/1000)
  else if market = "crypto_maker" then some (1/1000)
  else if market = "asx" then some (1/1000)
  else if market = "us" then some (1/1000)
  else none

/-- A completed round-trip trade (`ClosedTrade` dataclass);
times are epoch seconds. -/
structure ClosedTrade where
  symbol : String
  market : String
  entry_price_cents : ℤ
  exit_price_cents : ℤ
  quantity_cents : ℤ
  pnl_cents : ℤ
  entry_time : ℤ
  exit_time : ℤ
  exit_reason : String
  strategy : String
  holding_bars : ℤ
deriving Repr, DecidableEq

/-- Internal position tracker during a backtest (`_Position`). -/
structure Position where
  symbol : String
  market : String
  entry_price_cents : ℤ
  quantity_cents : ℤ
  stop_loss_cents : ℤ
  strategy : String
  entry_time : ℤ
  entry_bar_index : ℤ
  pyramid_count : ℤ
deriving Repr, DecidableEq

/-- One equity-curve snapshot (the dict appended by `_record_equity`). -/
structure EquityPoint where
  timestamp : ℤ
  equity_cents : ℤ
  cash_cents : ℤ
deriving Repr, DecidableEq

/-- The `BacktestBroker` state. -/
structure BacktestBroker where
  cash_cents : ℤ := 1000000
  starting_cash_cents : ℤ := 1000000
  max_position_size_cents : ℤ := 10000
  cooldown_bars : ℤ := 0
  fee_tier : String := "default"
  last_close_bar_index : ℤ := -999
  position : Option Position := none
  closed_trades : List ClosedTrade := []
  equity_curve : List EquityPoint := []
  total_fees_cents : ℤ := 0
deriving Repr, DecidableEq

namespace BacktestBroker

/-- `has_position` property. -/
def hasPosition (b : BacktestBroker) : Bool := b.position.isSome

/-- `_get_fee_rate`: maker tier only applies to crypto; dict lookup with
default 0.001. -/
def getFeeRate (b : BacktestBroker) (market : String) : ℚ :=
  if b.fee_tier = "maker" ∧ market = "crypto" then (FEE_RATES "crypto_maker").getD (1/1000)
  else (FEE_RATES market).getD (1/1000)

/-- `_open_position`: cooldown check, entry fee as spread, quantity
clipped by the position-size cap and available cash, $1 minimum. -/
def openPosition (sig : Signal) (bar_time bar_index : ℤ) (market : String)
    (b : BacktestBroker) : BacktestBroker :=
  if b.cooldown_bars > 0 ∧ bar_index - b.last_close_bar_index < b.cooldown_bars then b
  else
    let fee_rate := b.getFeeRate market
    let fill_price := pytrunc ((sig.price_cents : ℚ) * (1 + fee_rate))
    let quantity_cents := min (min (sig.data_quantity_cents.getD 100)
      b.max_position_size_cents) b.cash_cents
    if quantity_cents < 100 then b
    else
      { b with
        cash_cents := b.cash_cents - quantity_cents,
        total_fees_cents := b.total_fees_cents + pytrunc ((quantity_cents : ℚ) * fee_rate),
        position := some
          { symbol := sig.symbol, market := market,
            entry_price_cents := fill_price, quantity_cents := quantity_cents,
            stop_loss_cents := sig.stop_loss_cents, strategy := sig.strategy_name,
            entry_time := bar_time, entry_bar_index := bar_index, pyramid_count := 1 } }

/-- `_add_to_position`: weighted-average entry, stop replaced by the new
signal's stop when positive, same cap/cash/minimum clipping. -/
def addToPosition (sig : Signal) (bar_time bar_index : ℤ) (market : String)
    (b : BacktestBroker) : BacktestBroker :=
  match b.position with
  | none => b
  | some pos =>
      let fee_rate := b.getFeeRate market
      let fill_price := pytrunc ((sig.price_cents : ℚ) * (1 + fee_rate))
      let add_quantity := min (min (sig.data_quantity_cents.getD 100)
        b.max_position_size_cents) b.cash_cents
      if add_quantity < 100 then b
      else
        let old_total := pos.quantity_cents
        let new_total := old_total + add_quantity
        let pos :=
          { pos with
            entry_price_cents := pytrunc
              (((pos.entry_price_cents * old_total + fill_price * add_quantity : ℤ) : ℚ) /
                (new_total : ℚ)),
            quantity_cents := new_total,
            pyramid_count := pos.pyramid_count + 1 }
        let pos :=
          if sig.stop_loss_cents > 0 then { pos with stop_loss_cents := sig.stop_loss_cents }
          else pos
        { b with
          position := some pos,
          cash_cents := b.cash_cents - add_quantity,
          total_fees_cents := b.total_fees_cents + pytrunc ((add_quantity : ℚ) * fee_rate) }

/-- `_close_position`: exit fee as spread, percentage-of-notional P&L
`int(quantity * (fill - entry) / entry)`, capital plus P&L returned to
cash, the trade appended to the log. -/
def closePosition (price_cents bar_time bar_index : ℤ) (reason market : String)
    (b : BacktestBroker) : BacktestBroker :=
  match b.position with
  | none => b
  | some pos =>
      let fee_rate := b.getFeeRate market
      let fill_price := pytrunc ((price_cents : ℚ) * (1 - fee_rate))
      let exit_fee_cents := pytrunc ((pos.quantity_cents : ℚ) * fee_rate)
      let pnl_cents :=
        if pos.entry_price_cents > 0 then
          pytrunc (((pos.quantity_cents * (fill_price - pos.entry_price_cents) : ℤ) : ℚ) /
            ((pos.entry_price_cents : ℤ) : ℚ))
        else 0
      { b with
        last_close_bar_index := bar_index,
        cash_cents := b.cash_cents + pos.quantity_cents + pnl_cents,
        total_fees_cents := b.total_fees_cents + exit_fee_cents,
        closed_trades := b.closed_trades ++
          [{ symbol := pos.symbol, market := pos.market,
             entry_price_cents := pos.entry_price_cents,
             exit_price_cents := fill_price,
             quantity_cents := pos.quantity_cents,
             pnl_cents := pnl_cents,
             entry_time := pos.entry_time, exit_time := bar_time,
             exit_reason := reason, strategy := pos.strategy,
             holding_bars := bar_index - pos.entry_bar_index }],
        position := none }

/-- `get_equity_cents`: cash plus the position marked to `mark_price`. -/
def getEquityCents (mark_price_cents : ℤ) (b : BacktestBroker) : ℤ :=
  match b.position with
  | none => b.cash_cents
  | some pos =>
      b.cash_cents +
        (if pos.entry_price_cents > 0 then
          pytrunc (((pos.quantity_cents * mark_price_cents : ℤ) : ℚ) /
            ((pos.entry_price_cents : ℤ) : ℚ))
        else pos.quantity_cents)

/-- `_record_equity`: append one snapshot at the bar close. -/
def recordEquity (bar_close_cents bar_time : ℤ) (b : BacktestBroker) : BacktestBroker :=
  { b with equity_curve := b.equity_curve ++
      [{ timestamp := bar_time, equity_cents := b.getEquityCents bar_close_cents,
         cash_cents := b.cash_cents }] }

/-- Step 1 of `process_bar`: the stop-loss check against the bar low —
close immediately at the stop price if breached. -/
def stopLossCheck (bar_low_cents bar_time bar_index : ℤ) (market : String)
    (b : BacktestBroker) : BacktestBroker :=
  match b.position with
  | some pos =>
      if bar_low_cents ≤ pos.stop_loss_cents then
        closePosition pos.stop_loss_cents bar_time bar_index "stop_loss" market b
      else b
  | none => b

/-- Step 2 of `process_bar`: signal handling — sell-close, buy-open when
no position is held, buy-pyramid when one is. -/
def handleSignal (signal : Option Signal) (bar_time bar_index : ℤ) (market : String)
    (b : BacktestBroker) : BacktestBroker :=
  match signal with
  | some s =>
      if s.action = "sell" ∧ b.position.isSome then
        closePosition s.price_cents bar_time bar_index "signal" market b
      else if s.action = "buy" ∧ b.position.isNone then
        openPosition s bar_time bar_index market b
      else if s.action = "buy" ∧ b.position.isSome then
        addToPosition s bar_time bar_index market b
      else b
  | none => b

/-- `process_bar`: stop-loss check against the bar low, then signal
handling, then the equity snapshot — in exactly that order, as the
source's numbered statements run. -/
def processBar (signal : Option Signal) (bar_high_cents bar_low_cents bar_close_cents
    bar_time bar_index : ℤ) (market : String) (b : BacktestBroker) : BacktestBroker :=
  recordEquity bar_close_cents bar_time
    (handleSignal signal bar_time bar_index market
      (stopLossCheck bar_low_cents bar_time bar_index market b))

/-- `force_close`: close any open position at the end of a backtest. -/
def forceClose (price_cents bar_time bar_index : ℤ) (market : String)
    (b : BacktestBroker) : BacktestBroker :=
  if b.position.isSome then
    closePosition price_cents bar_time bar_index "backtest_end" market b
  else b

end BacktestBroker

/-! ### Indicators (`app/services/strategy/indicators.py`)

pandas series are positional lists of `Option ℚ`: `none` is NaN.
All operations mirror the pandas calls the source makes: `shift(1)`,
`rolling(window=p).max()/.min()` with the default `min_periods = p`, and
`ewm(alpha, min_periods=p).mean()` with the default `adjust=True`. -/

/-- A pandas series: one optional rational per row. -/
abbrev Series := List (Option ℚ)

/-- A fully defined series from raw values. -/
def ofList (xs : List ℚ) : Series := xs.map some

/-- `series.shift(1)`: NaN first, drop the last value. -/
def shift1 (s : Series) : Series := none :: s.dropLast

/-- Maximum of a non-empty list (0 for the empty list, never used there). -/
def listMax : List ℚ → ℚ
  | [] => 0
  | x :: xs => xs.foldl max x

/-- Minimum of a non-empty list (0 for the empty list, never used there). -/
def listMin : List ℚ → ℚ
  | [] => 0
  | x :: xs => xs.foldl min x

/-- `series.rolling(window=p).max()`: at each row, the max over the last
`p` rows when the window is full and has no NaN, else NaN. -/
def rollingMax (p : ℕ) (s : Series) : Series :=
  (List.range s.length).map fun i =>
    if i + 1 < p then none
    else
      let w := (s.drop (i + 1 - p)).take p
      if w.all Option.isSome then some (listMax (w.filterMap id)) else none

/-- `series.rolling(window=p).min()`, same NaN policy. -/
def rollingMin (p : ℕ) (s : Series) : Series :=
  (List.range s.length).map fun i =>
    if i + 1 < p then none
    else
      let w := (s.drop (i + 1 - p)).take p
      if w.all Option.isSome then some (listMin (w.filterMap id)) else none

/-- `series.ewm(alpha=α, min_periods=p).mean()` with the pandas defaults
`adjust=True`, `ignore_na=False`: at each row the weighted mean
`Σ (1-α)^j x_{i-j} / Σ (1-α)^j` over the defined values, NaN until `p`
defined observations have been seen. -/
def ewmMean (alpha : ℚ) (minp : ℕ) (s : Series) : Series :=
  (s.foldl
    (fun acc x =>
      let num := (x.getD 0) + (1 - alpha) * acc.2.1
      let den := (if x.isSome then (1:ℚ) else 0) + (1 - alpha) * acc.2.2.1
      let count := acc.2.2.2 + (if x.isSome then 1 else 0)
      let out := if count ≥ minp ∧ den ≠ 0 then some (num / den) else none
      (out :: acc.1, num, den, count))
    ([], 0, 0, 0)).1.reverse

/-- The true-range series of `atr`: `max(h - l, |h - prevClose|,
|l - prevClose|)`, where the missing previous close of the first row is
skipped by the pandas `max(axis=1)`. -/
def trueRange (high low close : List ℚ) : List ℚ :=
  (List.range high.length).map fun i =>
    let h := high.getD i 0
    let l := low.getD i 0
    if i = 0 then h - l
    else
      let pc := close.getD (i - 1) 0
      max (h - l) (max |h - pc| |l - pc|)

/-- `atr(high, low, close, period)`: Wilder-smoothed true range,
`ewm(alpha=1/period, min_periods=period).mean()`. -/
def atr (high low close : List ℚ) (period : ℕ) : Series :=
  ewmMean (1 / (period : ℚ)) period (ofList (trueRange high low close))

/-- `donchian_channel(high, low, period)`: (upper, lower) rolling bands
(the middle band is not used by the turtle code). -/
def donchian_channel (high low : Series) (period : ℕ) : Series × Series :=
  (rollingMax period high, rollingMin period low)

/-- The last element of a series (`iloc[-1]`), NaN when empty. -/
def seriesLast (s : Series) : Option ℚ := s.getLastD none

/-! ### Turtle strategies (`app/services/strategy/turtle.py`) -/

/-- One OHLCV row of the engine dataframe; prices are floats (rationals),
the timestamp an epoch second. `openPrice` models the "open" column
(`open` is a Lean keyword). -/
structure Bar where
  timestamp : ℤ
  openPrice : ℚ
  high : ℚ
  low : ℚ
  close : ℚ
  volume : ℚ
deriving Repr, DecidableEq, Inhabited

/-- `_TurtleBase.__init__` channel/stop/pyramid parameters. -/
structure TurtleParams where
  entry_period : ℕ := 20
  exit_period : ℕ := 10
  long_entry_period : ℕ := 55
  atr_period : ℕ := 20
  stop_multiplier : ℚ := 2
  pyramid_atr_step : ℚ := 1/2
  max_pyramids : ℕ := 4
deriving Repr, DecidableEq

/-- `TurtleCryptoStrategy` defaults. -/
def turtleCryptoParams : TurtleParams :=
  { entry_period := 15, exit_period := 8, long_entry_period := 40,
    atr_period := 20, stop_multiplier := 5/2, pyramid_atr_step := 1/2,
    max_pyramids := 3 }

/-- `TurtleStocksStrategy` defaults. -/
def turtleStocksParams : TurtleParams :=
  { entry_period := 20, exit_period := 10, long_entry_period := 55,
    atr_period := 20, stop_multiplier := 2, pyramid_atr_step := 1/2,
    max_pyramids := 4 }

/-- The mutable pyramid state a turtle strategy instance carries across
`generate_signals` calls. -/
structure TurtleState where
  pyramid_count : ℕ := 0
  last_entry_price : ℤ := 0
  current_n : ℚ := 0
deriving Repr, DecidableEq

/-- `_TurtleBase.generate_signals`: Donchian breakout entries (System 1
short channel, System 2 long channel), channel exit, pyramid adds, all on
channels computed from `shift(1)`-ed highs/lows. Returns the updated
instance state and the emitted signals. -/
def turtleGenerateSignals (P : TurtleParams) (name : String) (st : TurtleState)
    (df : List Bar) (symbol market : String) : TurtleState × List Signal :=
  let min_bars := max P.entry_period (max P.long_entry_period P.atr_period) + 5
  if df.length < min_bars then (st, [])
  else
    let close := df.map (fun b => b.close)
    let high := df.map (fun b => b.high)
    let low := df.map (fun b => b.low)
    let entry_ch := donchian_channel (shift1 (ofList high)) (shift1 (ofList low)) P.entry_period
    let long_ch := donchian_channel (shift1 (ofList high)) (shift1 (ofList low)) P.long_entry_period
    let exit_ch := donchian_channel (shift1 (ofList high)) (shift1 (ofList low)) P.exit_period
    let atr_values := atr high low close P.atr_period
    let current_close := pytrunc (close.getLastD 0)
    let prev_close := pytrunc ((close.dropLast).getLastD 0)
    match seriesLast entry_ch.1, seriesLast long_ch.1, seriesLast exit_ch.2,
        seriesLast atr_values with
    | some ceu, some clu, some cel, some catr =>
        let current_entry_upper := pytrunc ceu
        let current_long_upper := pytrunc clu
        let current_exit_lower := pytrunc cel
        let st := { st with current_n := catr }
        if current_close ≤ current_exit_lower then
          ({ st with pyramid_count := 0, last_entry_price := 0 },
            [{ symbol := symbol, market := market, action := "sell", strength := 8/10,
               stop_loss_cents := current_close, price_cents := current_close,
               reason := "Turtle exit: close " ++ toString current_close ++
                 " <= exit channel " ++ toString current_exit_lower ++ " (" ++
                 toString P.exit_period ++ "d low)",
               strategy_name := name }])
        else
          let system1_breakout := current_close > current_entry_upper ∧
            prev_close ≤ current_entry_upper
          let system2_breakout := current_close > current_long_upper ∧
            prev_close ≤ current_long_upper
          let entry :=
            if (system1_breakout ∨ system2_breakout) ∧ st.pyramid_count = 0 then
              let stop_loss := pytrunc ((current_close : ℚ) - P.stop_multiplier * st.current_n)
              let strength : ℚ := if system2_breakout then 9/10 else 7/10
              let sys_label := if system2_breakout then "System 2" else "System 1"
              let channel_val := if system2_breakout then current_long_upper
                else current_entry_upper
              some
                { symbol := symbol, market := market, action := "buy",
                  strength := strength, stop_loss_cents := max 1 stop_loss,
                  price_cents := current_close,
                  reason := "Turtle " ++ sys_label ++ " breakout: close " ++
                    toString current_close ++ " > " ++ toString P.entry_period ++
                    "d high " ++ toString channel_val,
                  strategy_name := name }
            else none
          let st := match entry with
            | some _ => { st with pyramid_count := 1, last_entry_price := current_close }
            | none => st
          let pyra : Option Signal :=
            if st.pyramid_count > 0 ∧ st.pyramid_count < P.max_pyramids then
              let pyramid_threshold := st.last_entry_price +
                pytrunc (P.pyramid_atr_step * st.current_n)
              if current_close ≥ pyramid_threshold then
                some
                  { symbol := symbol, market := market, action := "buy",
                    strength := 1/2,
                    stop_loss_cents :=
                      max 1 (pytrunc ((current_close : ℚ) -
                        P.stop_multiplier * st.current_n)),
                    price_cents := current_close,
                    reason := "Turtle pyramid #" ++ toString (st.pyramid_count + 1) ++
                      ": close " ++ toString current_close ++ " >= threshold " ++
                      toString pyramid_threshold ++ " (last entry + " ++
                      toString P.pyramid_atr_step ++ "N)",
                    strategy_name := name }
              else none
            else none
          let st := match pyra with
            | some _ =>
                { st with pyramid_count := st.pyramid_count + 1,
                          last_entry_price := current_close }
            | none => st
          (st, (entry.toList) ++ (pyra.toList))
    | _, _, _, _ => (st, [])

/-! ### The C2 Turtle-breakout scenario -/

/-- The scenario closes: 70 flat bars at 10000 cents, then a rise to
10500 over 10 bars (+50 per bar). -/
def c2close (i : ℕ) : ℚ := if i < 70 then 10000 else 10000 + 50 * ((i : ℚ) - 69)

/-- The scenario candles (open = high = low = close, as the spec gives
only closes). -/
def c2df : List Bar :=
  (List.range 80).map fun i =>
    { timestamp := Int.ofNat i, openPrice := c2close i, high := c2close i,
      low := c2close i, close := c2close i, volume := 0 }

/-- Walk the strategy forward: at every bar `i` call `generate_signals`
on `candles[0..i]`, threading the instance state, and tag each emitted
signal with its bar index. -/
def walkSignals (P : TurtleParams) (name : String) (df : List Bar)
    (symbol market : String) : List (ℕ × Signal) :=
  ((List.range df.length).foldl
    (fun acc i =>
      let (st, sigs) := turtleGenerateSignals P name acc.2 (df.take (i + 1)) symbol market
      (acc.1 ++ sigs.map (fun s => (i, s)), st))
    ([], {})).1

/-- The buy signals of the walked C2 scenario. -/
def c2buys : List (ℕ × Signal) :=
  (walkSignals turtleCryptoParams "turtle_crypto" c2df "BTC" "crypto").filter
    (fun p => p.2.action = "buy")

/-- Whether bar `i` of `df` closes above the highest high of the prior
`p` bars (the shifted Donchian upper band, as the strategy computes it). -/
def closeExceedsPriorHigh (p : ℕ) (df : List Bar) (i : ℕ) : Bool :=
  (seriesLast (rollingMax p (shift1 (ofList ((df.take (i + 1)).map (fun b => b.high)))))).any
    (fun u => decide (u < (df.getD i default).close))

/-- The strategy's ATR value at bar `i` of `df` (crypto period 20). -/
def atrAt (df : List Bar) (i : ℕ) : Option ℚ :=
  seriesLast (atr ((df.take (i + 1)).map (fun b => b.high))
    ((df.take (i + 1)).map (fun b => b.low))
    ((df.take (i + 1)).map (fun b => b.close)) 20)

/-- A bar unlike any in the C2 dataset, used to perturb candles after a
decision index. -/
def oddBar : Bar :=
  { timestamp := 31, openPrice := 99999, high := 99999, low := 99999,
    close := 99999, volume := 0 }

/-! ### Walk-forward engine (`app/services/backtest/engine.py`)

The strategy is a parameter `gen : σ → List Bar → σ × List Signal`
(the `generate_signals` method together with the mutable instance state
it carries), matching how the engine calls whatever `BaseStrategy` it
instantiated. -/

/-- Warm-up bars (`MIN_WARMUP_BARS`). -/
def MIN_WARMUP_BARS : ℕ := 30

/-- `max(signals, key=lambda s: s.strength)`: the first signal of
maximal strength (Python's `max` keeps the earliest maximum). -/
def bestSignal : List Signal → Option Signal
  | [] => none
  | s :: rest => some (rest.foldl (fun acc x => if x.strength > acc.strength then x else acc) s)

/-- `BacktestEngine._apply_position_sizing`: 1% risk budget divided by
the stop distance (with ATR-based and price-based fallbacks), capped at
`settings.max_position_size_cents`, floored at 100 cents; the result is
written into the signal's `indicator_data["quantity_cents"]`. -/
def applyPositionSizing (sig : Signal) (df : List Bar) (portfolio_value_cents : ℤ) :
    Signal :=
  let risk_budget_cents := pytrunc ((portfolio_value_cents : ℚ) * (1/100))
  let stop_distance := |sig.price_cents - sig.stop_loss_cents|
  let stop_distance :=
    if stop_distance ≤ 0 then
      match seriesLast (atr (df.map (fun b => b.high)) (df.map (fun b => b.low))
          (df.map (fun b => b.close)) 14) with
      | some current_atr => pytrunc (current_atr * 2)
      | none => Int.fdiv sig.price_cents 20
    else stop_distance
  let stop_distance :=
    if stop_distance ≤ 0 then max 1 (Int.fdiv sig.price_cents 20) else stop_distance
  let quantity_cents :=
    if sig.price_cents > 0 then
      pytrunc ((risk_budget_cents : ℚ) * (sig.price_cents : ℚ) / (stop_distance : ℚ))
    else risk_budget_cents
  let quantity_cents := min quantity_cents settings.max_position_size_cents
  let quantity_cents := max 100 quantity_cents
  { sig with data_quantity_cents := some quantity_cents }

/-- One iteration of the walk-forward loop at bar `i`: generate signals
on the expanding window, select the strongest, drop a sell with no held
position, size a buy, and process the bar through the broker. Returns
the new (strategy state, broker) and the selected signal. -/
def engineBarStep {σ : Type} (gen : σ → List Bar → σ × List Signal)
    (market : String) (window : List Bar) (i : ℕ)
    (s : σ × BacktestBroker) : (σ × BacktestBroker) × Option Signal :=
  let bar := window.getD i default
  let st_signals := gen s.1 window
  let best0 := bestSignal st_signals.2
  let best1 : Option Signal :=
    match best0 with
    | some bs => if bs.action = "sell" ∧ ¬ s.2.hasPosition then none else some bs
    | none => none
  let best2 : Option Signal :=
    match best1 with
    | some bs =>
        if bs.action = "buy" then
          some (applyPositionSizing bs window (s.2.getEquityCents (pytrunc bar.close)))
        else some bs
    | none => none
  let broker := s.2.processBar best2 (pytrunc bar.high) (pytrunc bar.low)
    (pytrunc bar.close) bar.timestamp (Int.ofNat i) market
  ((st_signals.1, broker), best2)

/-- The engine state before bar `i`: bars `MIN_WARMUP_BARS .. i-1`
processed on expanding windows `candles[0..j]`. -/
def engineStateBefore {σ : Type} (gen : σ → List Bar → σ × List Signal)
    (market : String) (df : List Bar) (init : σ × BacktestBroker) :
    ℕ → σ × BacktestBroker
  | 0 => init
  | i + 1 =>
      if i < MIN_WARMUP_BARS then init
      else (engineBarStep gen market (df.take (i + 1)) i
        (engineStateBefore gen market df init i)).1

/-- The decision the engine computes at bar `i`: the selected signal and
the strategy/broker state after processing the bar. -/
def engineDecisionAt {σ : Type} (gen : σ → List Bar → σ × List Signal)
    (market : String) (df : List Bar) (init : σ × BacktestBroker) (i : ℕ) :
    (σ × BacktestBroker) × Option Signal :=
  engineBarStep gen market (df.take (i + 1)) i
    (engineStateBefore gen market df init i)

/-- The turtle-crypto strategy as an engine strategy function, for
concrete engine runs. -/
def turtleCryptoGen (symbol market : String) :
    TurtleState → List Bar → TurtleState × List Signal :=
  fun st df => turtleGenerateSignals turtleCryptoParams "turtle_crypto" st df symbol market

/-! ### Metrics (`app/services/backtest/metrics.py`) -/

/-- The dict returned by `_compute_trade_stats`. -/
structure TradeStats where
  total_trades : ℕ
  winning_trades : ℕ
  losing_trades : ℕ
  win_rate_pct : ℚ
  profit_factor : ℚ
  avg_win_cents : ℤ
  avg_loss_cents : ℤ
  max_consecutive_wins : ℕ
  max_consecutive_losses : ℕ
  avg_holding_bars : ℚ
deriving Repr, DecidableEq

/-- The consecutive-streak loop of `_compute_trade_stats`, as
`(max_wins, max_losses, current_wins, current_losses)`; a trade counts
toward the winning streak exactly when `pnl_cents > 0`. -/
def tradeStreaks (trades : List ClosedTrade) : ℕ × ℕ × ℕ × ℕ :=
  trades.foldl
    (fun acc t =>
      if t.pnl_cents > 0 then
        (max acc.1 (acc.2.2.1 + 1), acc.2.1, acc.2.2.1 + 1, 0)
      else
        (acc.1, max acc.2.1 (acc.2.2.2 + 1), 0, acc.2.2.2 + 1))
    (0, 0, 0, 0)

/-- The body of `_compute_trade_stats` for a non-empty trade list:
wins are `pnl > 0`, losses are `pnl <= 0`. -/
def computeTradeStatsBody (trades : List ClosedTrade) : TradeStats :=
  let wins := trades.filter (fun t => t.pnl_cents > 0)
  let losses := trades.filter (fun t => t.pnl_cents ≤ 0)
  let gross_profit := (wins.map (fun t => t.pnl_cents)).sum
  let gross_loss := |(losses.map (fun t => t.pnl_cents)).sum|
  let streaks := tradeStreaks trades
  let total_holding := (trades.map (fun t => t.holding_bars)).sum
  { total_trades := trades.length
    winning_trades := wins.length
    losing_trades := losses.length
    win_rate_pct := (wins.length : ℚ) / (trades.length : ℚ) * 100
    profit_factor :=
      if gross_loss > 0 then (gross_profit : ℚ) / (gross_loss : ℚ)
      else if gross_profit > 0 then 9999 else 0
    avg_win_cents := if wins.length ≠ 0 then pytrunc ((gross_profit : ℚ) / (wins.length : ℚ))
      else 0
    avg_loss_cents := if losses.length ≠ 0 then
        pytrunc ((-(gross_loss : ℚ)) / (losses.length : ℚ))
      else 0
    max_consecutive_wins := streaks.1
    max_consecutive_losses := streaks.2.1
    avg_holding_bars := (total_holding : ℚ) / (trades.length : ℚ) }

/-- `_compute_trade_stats`: the all-zero dict for an empty list, the
computed statistics otherwise. -/
def computeTradeStats (trades : List ClosedTrade) : TradeStats :=
  match trades with
  | [] =>
      { total_trades := 0, winning_trades := 0, losing_trades := 0,
        win_rate_pct := 0, profit_factor := 0, avg_win_cents := 0,
        avg_loss_cents := 0, max_consecutive_wins := 0,
        max_consecutive_losses := 0, avg_holding_bars := 0 }
  | _ => computeTradeStatsBody trades

/-- The well-formedness the broker maintains: non-negative cash, and any
open position has non-negative quantity, stop and entry price. -/
def BrokerInv (b : BacktestBroker) : Prop :=
  0 ≤ b.cash_cents ∧
    ∀ pos ∈ b.position, 0 ≤ pos.quantity_cents ∧ 0 ≤ pos.stop_loss_cents ∧
      0 ≤ pos.entry_price_cents

/-- Non-negative signal prices: the fill price and the stop. -/
def SignalPricesNonneg (s : Signal) : Prop :=
  0 ≤ s.price_cents ∧ 0 ≤ s.stop_loss_cents

end FlashTrade

/-! ## Theorems -/

theorem pytrunc_le_of_le {n : ℤ} {x : ℚ} (h : (n : ℚ) ≤ x) : n ≤ pytrunc x := by
  unfold pytrunc
  split
  · exact Int.le_floor.mpr h
  · exact_mod_cast le_trans h (Int.le_ceil x)

theorem pytrunc_nonneg {x : ℚ} (h : 0 ≤ x) : 0 ≤ pytrunc x :=
  pytrunc_le_of_le (by exact_mod_cast h)

namespace FlashTrade

/-- `evaluate` on a manager whose store carries the halt flag: the call
rejects with the halt reason and only synchronizes memory with the store. -/
theorem evaluate_of_store_halted (cfg : Settings) (now : ℤ) (o : Order)
    (rm : RiskManager) (h : rm.store.halted = true) :
    RiskManager.evaluate cfg now o rm =
      ({ approved := false, reason := "Trading halted: " ++ rm.store.halt_reason },
        RiskManager.loadState rm) := by
  unfold RiskManager.evaluate RiskManager.loadState
  simp [h]

/-- Every risk-manager call except `reset_halt` preserves the halt flag in
both memory and store, once both are set. -/
theorem apply_preserves_halted (cfg : Settings) (op : RiskOp) (rm : RiskManager)
    (hm : rm.mem.halted = true) (hs : rm.store.halted = true) :
    (RiskOp.apply cfg op rm).mem.halted = true ∧
      (RiskOp.apply cfg op rm).store.halted = true := by
  cases op with
  | evalOp now o =>
      simp [RiskOp.apply, evaluate_of_store_halted cfg now o rm hs,
        RiskManager.loadState, hs]
  | recordOp now pnl =>
      simp only [RiskOp.apply, RiskManager.recordTradeResult, RiskManager.saveState]
      split <;> (try split) <;> simpa using hm
  | killOp => simp [RiskOp.apply, RiskManager.killSwitch, RiskManager.saveState]
  | resetDailyOp =>
      simp [RiskOp.apply, RiskManager.resetDailyPnl, RiskManager.saveState, hm]
  | setPortfolioOp v =>
      simp [RiskOp.apply, RiskManager.setPortfolioValue, hm, hs]

/-- C1: the claim says the risk state is written back to the durable store
after every `evaluate`, so that a daily-drawdown halt is in the store when
the call returns. The code never saves inside `evaluate`: at the failing
input (fresh manager, one recorded 50000-cent loss, then a valid order)
the call rejects and halts in memory, yet the store still has
`halted = false` and is byte-for-byte the pre-call store. -/
theorem C1_drawdown_halt_not_persisted :
    drawdownEval.1.approved = false ∧
    RiskManager.isHalted drawdownEval.2 = true ∧
    drawdownEval.2.store.halted = false ∧
    drawdownEval.2.store = rmAfterLoss.store := by
  decide

/-- C4 counterexample: from a state in which the gate is halted
(`is_halted = true` after a drawdown halt), a later `evaluate` — with no
`reset_halt` in between, only a `set_portfolio_value` — returns
`approved = true`, because the drawdown halt was never persisted and
`evaluate` reloads the (non-halted) store. -/
theorem C4_halt_not_sticky_counterexample :
    RiskManager.isHalted drawdownEval.2 = true ∧
    (RiskManager.evaluate settings 20 sampleOrder
      (RiskManager.setPortfolioValue 100000000 drawdownEval.2)).1.approved = true := by
  decide

/-- C4 amended: when the halted flag is set in the durable store (as the
kill switch sets it), every `evaluate` in any sequence of risk-manager
calls not containing `reset_halt` returns `approved = false`, and the
halt flag stays set in memory and store throughout. -/
theorem C4_store_halted_rejects_until_reset (cfg : Settings) (ops : List RiskOp) :
    ∀ rm : RiskManager, rm.mem.halted = true → rm.store.halted = true →
      (RiskOp.runOps cfg ops rm).mem.halted = true ∧
      (RiskOp.runOps cfg ops rm).store.halted = true ∧
      ∀ v ∈ RiskOp.verdicts cfg ops rm, v.approved = false := by
  induction ops with
  | nil =>
      intro rm hm hs
      exact ⟨hm, hs, by simp [RiskOp.verdicts]⟩
  | cons op rest ih =>
      intro rm hm hs
      have hpres := apply_preserves_halted cfg op rm hm hs
      have hrest := ih (RiskOp.apply cfg op rm) hpres.1 hpres.2
      refine ⟨?_, ?_, ?_⟩
      · simpa [RiskOp.runOps] using hrest.1
      · simpa [RiskOp.runOps] using hrest.2.1
      · intro v hv
        cases op with
        | evalOp now o =>
            rw [RiskOp.verdicts] at hv
            rcases List.mem_cons.mp hv with h | h
            · subst h
              rw [evaluate_of_store_halted cfg now o rm hs]
            · exact hrest.2.2 v h
        | recordOp now pnl => exact hrest.2.2 v (by simpa [RiskOp.verdicts] using hv)
        | killOp => exact hrest.2.2 v (by simpa [RiskOp.verdicts] using hv)
        | resetDailyOp => exact hrest.2.2 v (by simpa [RiskOp.verdicts] using hv)
        | setPortfolioOp w => exact hrest.2.2 v (by simpa [RiskOp.verdicts] using hv)

/-- Witness for C4 amended: after the kill switch, a concrete
evaluate/record sequence stays halted and its evaluate is rejected. -/
theorem C4_store_halted_witness :
    (RiskOp.runOps settings [RiskOp.evalOp 0 sampleOrder, RiskOp.recordOp 1 (-5)]
      (RiskManager.killSwitch freshRM)).store.halted = true ∧
    ∀ v ∈ RiskOp.verdicts settings [RiskOp.evalOp 0 sampleOrder, RiskOp.recordOp 1 (-5)]
      (RiskManager.killSwitch freshRM), v.approved = false := by
  have h := C4_store_halted_rejects_until_reset settings
    [RiskOp.evalOp 0 sampleOrder, RiskOp.recordOp 1 (-5)]
    (RiskManager.killSwitch freshRM) (by decide) (by decide)
  exact ⟨h.2.1, h.2.2⟩

/-- C5 counterexample: the claim says a rejection leaves the risk state
exactly as it was. From the reachable state with three recorded losses
(`consecutive_losses = 3`, `paused_until = some 3600`), an `evaluate` at
time 3600 with a zero stop-loss order is rejected for the missing stop,
yet the in-memory risk state has changed: the elapsed pause was cleared
and the loss counter reset to 0 on the way to the rejection. -/
theorem C5_rejection_side_effect_counterexample :
    (RiskManager.evaluate settings 3600 stopZeroOrder rmPaused).1.approved = false ∧
    (RiskManager.evaluate settings 3600 stopZeroOrder rmPaused).1.reason =
      "Order rejected: stop-loss is mandatory" ∧
    (RiskManager.evaluate settings 3600 stopZeroOrder rmPaused).2.mem ≠ rmPaused.mem := by
  decide

/-- C5 amended: whenever one of the five listed rejection guards fires
(halted; circuit-paused; stop-loss ≤ 0; quantity above the position-size
cap; per-trade risk above the pct-of-portfolio cap), `evaluate` returns
`approved = false`, never writes the durable store, and leaves the
in-memory state equal to the loaded store state except that an already
elapsed circuit-breaker pause is cleared (pause `none`, losses 0) before
the stop/size/risk checks run — the auto-revert the spec itself specifies. -/
theorem C5_listed_rejections_effects (cfg : Settings) (now : ℤ) (o : Order)
    (rm : RiskManager) (h : listedRejection cfg now o rm) :
    (RiskManager.evaluate cfg now o rm).1.approved = false ∧
    (RiskManager.evaluate cfg now o rm).2.store = rm.store ∧
    (RiskManager.evaluate cfg now o rm).2.portfolio_value_cents = rm.portfolio_value_cents ∧
    ((RiskManager.evaluate cfg now o rm).2.mem = rm.store ∨
      (RiskManager.evaluate cfg now o rm).2.mem = (RiskManager.isPausedStep now rm.store).2) := by
  unfold RiskManager.evaluate RiskManager.loadState
  rcases h with h | ⟨h1, h2⟩ | ⟨h1, h2, h3⟩ | ⟨h1, h2, h3, h4⟩ | ⟨h1, h2, h3, h4, h5⟩
  · simp [h]
  · simp [h1, h2]
  · simp [h1, h2, h3]
  · simp only [h1, h2, h3, h4]
    simp
  · simp only [h1, h2, h3, h4, h5]
    simp [h3, h4, h5]

/-- Witness for C5 amended: the concrete paused manager rejects the
sample order and only the pause-expiry cleanup is visible afterwards. -/
theorem C5_listed_rejections_witness :
    (RiskManager.evaluate settings 100 sampleOrder rmPaused).1.approved = false ∧
    (RiskManager.evaluate settings 100 sampleOrder rmPaused).2.store = rmPaused.store := by
  have h := C5_listed_rejections_effects settings 100 sampleOrder rmPaused
    (Or.inr (Or.inl (by decide)))
  exact ⟨h.1, h.2.1⟩

/-- C6: from the normal state (loss counter 0, no pause), three
`record_trade_result` calls with negative P&L arm the circuit breaker:
`paused_until` is set to the third call time plus 60 minutes, in memory
and in the store, and `is_paused` is then true; and any
`record_trade_result` with non-negative P&L resets the consecutive-loss
counter to 0 in memory and store. -/
theorem C6_circuit_breaker_transitions (rm : RiskManager) (n1 n2 n3 p1 p2 p3 : ℤ)
    (h0 : rm.mem.consecutive_losses = 0) (hp : rm.mem.paused_until = none)
    (h1 : p1 < 0) (h2 : p2 < 0) (h3 : p3 < 0) :
    ((RiskManager.recordTradeResult settings n3 p3
        (RiskManager.recordTradeResult settings n2 p2
          (RiskManager.recordTradeResult settings n1 p1 rm))).mem.paused_until =
        some (n3 + 3600) ∧
      (RiskManager.recordTradeResult settings n3 p3
        (RiskManager.recordTradeResult settings n2 p2
          (RiskManager.recordTradeResult settings n1 p1 rm))).store.paused_until =
        some (n3 + 3600) ∧
      (RiskManager.isPausedStep n3
        (RiskManager.recordTradeResult settings n3 p3
          (RiskManager.recordTradeResult settings n2 p2
            (RiskManager.recordTradeResult settings n1 p1 rm))).mem).1 = true) ∧
    ∀ (rm' : RiskManager) (now pnl : ℤ), 0 ≤ pnl →
      (RiskManager.recordTradeResult settings now pnl rm').mem.consecutive_losses = 0 ∧
      (RiskManager.recordTradeResult settings now pnl rm').store.consecutive_losses = 0 := by
  constructor
  · unfold RiskManager.recordTradeResult RiskManager.saveState
    simp only [settings, h0, hp, h1, h2, h3, if_pos]
    norm_num
    unfold RiskManager.isPausedStep
    simp
  · intro rm' now pnl hpnl
    unfold RiskManager.recordTradeResult RiskManager.saveState
    simp [not_lt.mpr hpnl]

/-- Witness for C6: three 100-cent losses at times 0, 1, 2 pause the gate
until 3602, and a break-even result resets the loss counter. -/
theorem C6_circuit_breaker_witness :
    ((RiskManager.recordTradeResult settings 2 (-100)
        (RiskManager.recordTradeResult settings 1 (-100)
          (RiskManager.recordTradeResult settings 0 (-100) freshRM))).mem.paused_until =
      some 3602) ∧
    (RiskManager.recordTradeResult settings 7 0 rmPaused).mem.consecutive_losses = 0 := by
  have h := C6_circuit_breaker_transitions freshRM 0 1 2 (-100) (-100) (-100)
    (by decide) (by decide) (by decide) (by decide) (by decide)
  exact ⟨by simpa using h.1.1, (h.2 rmPaused 7 0 (by decide)).1⟩

/-! ### Broker lemmas and claims C7, C8, C10 -/

theorem getFeeRate_nonneg (b : BacktestBroker) (m : String) :
    0 ≤ b.getFeeRate m := by
  unfold BacktestBroker.getFeeRate FEE_RATES
  split_ifs <;> norm_num

theorem getFeeRate_le_one (b : BacktestBroker) (m : String) :
    b.getFeeRate m ≤ 1 := by
  unfold BacktestBroker.getFeeRate FEE_RATES
  split_ifs <;> norm_num

/-- The percentage-of-notional P&L `int(q * (fill - entry) / entry)` is
never below `-q` when the quantity and the exit fill are non-negative. -/
theorem pnl_ge_neg_qty (q entry fill : ℤ) (hq : 0 ≤ q) (hfill : 0 ≤ fill) :
    -q ≤ (if entry > 0 then
        pytrunc (((q * (fill - entry) : ℤ) : ℚ) / ((entry : ℤ) : ℚ))
      else 0) := by
  split
  · next hentry =>
      apply pytrunc_le_of_le
      have heq : (0:ℚ) < ((entry : ℤ) : ℚ) := by exact_mod_cast hentry
      rw [le_div_iff heq]
      push_cast
      nlinarith [mul_nonneg (show (0:ℚ) ≤ (q : ℚ) by exact_mod_cast hq)
        (show (0:ℚ) ≤ (fill : ℚ) by exact_mod_cast hfill)]
  · omega

/-- The exit fill, P&L and cash effect of `_close_position`: the broker
invariant is preserved, the close never reduces cash (the loss on a close
never exceeds the position quantity), and exactly one trade is appended,
with `pnl_cents ≥ -quantity_cents`. -/
theorem closePosition_spec (price_cents bar_time bar_index : ℤ) (reason market : String)
    (b : BacktestBroker) (hb : BrokerInv b) (hp : 0 ≤ price_cents) :
    BrokerInv (BacktestBroker.closePosition price_cents bar_time bar_index reason market b) ∧
    b.cash_cents ≤
      (BacktestBroker.closePosition price_cents bar_time bar_index reason market b).cash_cents ∧
    ∀ pos ∈ b.position, ∃ tr,
      (BacktestBroker.closePosition price_cents bar_time bar_index reason market b).closed_trades
          = b.closed_trades ++ [tr] ∧
        tr.quantity_cents = pos.quantity_cents ∧ -pos.quantity_cents ≤ tr.pnl_cents := by
  obtain ⟨hcash, hpos⟩ := hb
  cases hbp : b.position with
  | none =>
      simp only [BacktestBroker.closePosition, hbp]
      exact ⟨⟨hcash, hpos⟩, le_refl _, by simp [hbp]⟩
  | some pos =>
      obtain ⟨hq, hs, he⟩ := hpos pos (by simp [hbp])
      have hfee0 := getFeeRate_nonneg b market
      have hfee1 := getFeeRate_le_one b market
      have hfill : 0 ≤ pytrunc ((price_cents : ℚ) * (1 - b.getFeeRate market)) := by
        apply pytrunc_nonneg
        have h0 : (0 : ℚ) ≤ (price_cents : ℚ) := by exact_mod_cast hp
        nlinarith
      have hpnl := pnl_ge_neg_qty pos.quantity_cents pos.entry_price_cents
        (pytrunc ((price_cents : ℚ) * (1 - b.getFeeRate market))) hq hfill
      simp only [BacktestBroker.closePosition, hbp]
      refine ⟨⟨?_, by simp⟩, ?_, ?_⟩
      · dsimp only
        omega
      · dsimp only
        omega
      · intro p hmem
        simp only [Option.mem_def, Option.some.injEq] at hmem
        subst hmem
        exact ⟨_, rfl, rfl, hpnl⟩

/-- `_open_position` preserves the broker invariant for signals with
non-negative prices. -/
theorem openPosition_inv (sig : Signal) (bar_time bar_index : ℤ) (market : String)
    (b : BacktestBroker) (hb : BrokerInv b) (hs : SignalPricesNonneg sig) :
    BrokerInv (BacktestBroker.openPosition sig bar_time bar_index market b) := by
  obtain ⟨hcash, hpos⟩ := hb
  unfold BacktestBroker.openPosition
  dsimp only
  split
  · exact ⟨hcash, hpos⟩
  · split
    · exact ⟨hcash, hpos⟩
    · next hmin =>
        push_neg at hmin
        have hle : min (min (sig.data_quantity_cents.getD 100)
            b.max_position_size_cents) b.cash_cents ≤ b.cash_cents := min_le_right _ _
        refine ⟨by dsimp only; omega, ?_⟩
        intro pos hmem
        simp only [Option.mem_def, Option.some.injEq] at hmem
        subst hmem
        refine ⟨by dsimp only; omega, hs.2, ?_⟩
        apply pytrunc_nonneg
        have h1 : (0:ℚ) ≤ (sig.price_cents : ℚ) := by exact_mod_cast hs.1
        nlinarith [getFeeRate_nonneg b market]

/-- `_add_to_position` preserves the broker invariant for signals with
non-negative prices. -/
theorem addToPosition_inv (sig : Signal) (bar_time bar_index : ℤ) (market : String)
    (b : BacktestBroker) (hb : BrokerInv b) (hs : SignalPricesNonneg sig) :
    BrokerInv (BacktestBroker.addToPosition sig bar_time bar_index market b) := by
  obtain ⟨hcash, hpos⟩ := hb
  unfold BacktestBroker.addToPosition
  cases hbp : b.position with
  | none => simp only [hbp]; exact ⟨hcash, hpos⟩
  | some pos =>
      obtain ⟨hq, hst, he⟩ := hpos pos (by simp [hbp])
      simp only [hbp]
      split
      · exact ⟨hcash, hpos⟩
      · next hmin =>
          rw [not_lt] at hmin
          have hle : min (min (sig.data_quantity_cents.getD 100)
              b.max_position_size_cents) b.cash_cents ≤ b.cash_cents := min_le_right _ _
          have hfee0 := getFeeRate_nonneg b market
          have hfill : 0 ≤ pytrunc ((sig.price_cents : ℚ) * (1 + b.getFeeRate market)) := by
            apply pytrunc_nonneg
            have h1 : (0:ℚ) ≤ (sig.price_cents : ℚ) := by exact_mod_cast hs.1
            nlinarith
          have hentry : 0 ≤ pytrunc
              (((pos.entry_price_cents * pos.quantity_cents +
                  pytrunc ((sig.price_cents : ℚ) * (1 + b.getFeeRate market)) *
                    (min (min (sig.data_quantity_cents.getD 100)
                      b.max_position_size_cents) b.cash_cents) : ℤ) : ℚ) /
                ((pos.quantity_cents + min (min (sig.data_quantity_cents.getD 100)
                  b.max_position_size_cents) b.cash_cents : ℤ) : ℚ)) := by
            apply pytrunc_nonneg
            apply div_nonneg
            · have h2 : (0:ℤ) ≤ pos.entry_price_cents * pos.quantity_cents +
                  pytrunc ((sig.price_cents : ℚ) * (1 + b.getFeeRate market)) *
                    (min (min (sig.data_quantity_cents.getD 100)
                      b.max_position_size_cents) b.cash_cents) := by
                have := mul_nonneg he hq
                have := mul_nonneg hfill (by omega :
                  (0:ℤ) ≤ min (min (sig.data_quantity_cents.getD 100)
                    b.max_position_size_cents) b.cash_cents)
                omega
              exact_mod_cast h2
            · have h3 : (0:ℤ) ≤ pos.quantity_cents + min (min
                  (sig.data_quantity_cents.getD 100)
                  b.max_position_size_cents) b.cash_cents := by omega
              exact_mod_cast h3
          refine ⟨by dsimp only; omega, ?_⟩
          intro p hp
          simp only [Option.mem_def, Option.some.injEq] at hp
          subst hp
          split
          · next hstop => exact ⟨by dsimp only; omega, le_of_lt hstop, hentry⟩
          · exact ⟨by dsimp only; omega, hst, hentry⟩

/-- Step 1 of `process_bar` preserves the broker invariant. -/
theorem stopLossCheck_inv (bar_low bar_time bar_index : ℤ) (market : String)
    (b : BacktestBroker) (hb : BrokerInv b) :
    BrokerInv (BacktestBroker.stopLossCheck bar_low bar_time bar_index market b) := by
  unfold BacktestBroker.stopLossCheck
  cases hbp : b.position with
  | none => simp only [hbp]; exact hb
  | some pos =>
      obtain ⟨hq, hst, he⟩ := hb.2 pos (by simp [hbp])
      simp only [hbp]
      split
      · exact (closePosition_spec pos.stop_loss_cents bar_time bar_index
          "stop_loss" market b hb hst).1
      · exact hb

/-- Step 2 of `process_bar` preserves the broker invariant for signals
with non-negative prices. -/
theorem handleSignal_inv (signal : Option Signal) (bar_time bar_index : ℤ)
    (market : String) (b : BacktestBroker) (hb : BrokerInv b)
    (hs : ∀ s ∈ signal, SignalPricesNonneg s) :
    BrokerInv (BacktestBroker.handleSignal signal bar_time bar_index market b) := by
  unfold BacktestBroker.handleSignal
  cases hsig : signal with
  | none => simp only; exact hb
  | some s =>
      have hsp := hs s (by simp [hsig])
      simp only
      split
      · exact (closePosition_spec s.price_cents bar_time bar_index
          "signal" market b hb hsp.1).1
      · split
        · exact openPosition_inv s bar_time bar_index market b hb hsp
        · split
          · exact addToPosition_inv s bar_time bar_index market b hb hsp
          · exact hb

/-- The equity snapshot changes no cash and no position. -/
theorem recordEquity_inv (bar_close bar_time : ℤ) (b : BacktestBroker)
    (hb : BrokerInv b) :
    BrokerInv (BacktestBroker.recordEquity bar_close bar_time b) :=
  ⟨hb.1, hb.2⟩

/-- C8: the broker cash balance is never negative. From any state
satisfying the invariant (cash ≥ 0, any open position with non-negative
quantity, stop and entry), a `process_bar` with any signal of
non-negative prices preserves the invariant, and so does `force_close` at
a non-negative price; moreover a close never reduces cash: the recorded
trade's loss never exceeds the position quantity. -/
theorem C8_cash_never_negative (signal : Option Signal)
    (bar_high bar_low bar_close bar_time bar_index price_cents : ℤ)
    (reason market : String) (b : BacktestBroker)
    (hb : BrokerInv b)
    (hs : ∀ s ∈ signal, SignalPricesNonneg s)
    (hp : 0 ≤ price_cents) :
    BrokerInv (BacktestBroker.processBar signal bar_high bar_low bar_close
      bar_time bar_index market b) ∧
    BrokerInv (BacktestBroker.forceClose price_cents bar_time bar_index market b) ∧
    b.cash_cents ≤
      (BacktestBroker.closePosition price_cents bar_time bar_index reason market b).cash_cents ∧
    ∀ pos ∈ b.position, ∃ tr,
      (BacktestBroker.closePosition price_cents bar_time bar_index reason market b).closed_trades
          = b.closed_trades ++ [tr] ∧
        tr.quantity_cents = pos.quantity_cents ∧ -pos.quantity_cents ≤ tr.pnl_cents := by
  have hclose := closePosition_spec price_cents bar_time bar_index reason market b hb hp
  refine ⟨?_, ?_, hclose.2.1, hclose.2.2⟩
  · exact recordEquity_inv _ _ _
      (handleSignal_inv signal bar_time bar_index market _
        (stopLossCheck_inv bar_low bar_time bar_index market b hb) hs)
  · unfold BacktestBroker.forceClose
    split
    · exact (closePosition_spec price_cents bar_time bar_index
        "backtest_end" market b hb hp).1
    · exact hb

/-- Witness for C8: the concrete pyramided broker state keeps
non-negative cash through a stop-hit bar and a force-close. -/
theorem C8_cash_never_negative_witness :
    BrokerInv (BacktestBroker.processBar none 10100 9900 10000 0 5 "crypto"
      { cash_cents := 0, position := some
          { symbol := "BTC", market := "crypto", entry_price_cents := 10040,
            quantity_cents := 5000, stop_loss_cents := 9950, strategy := "t",
            entry_time := 0, entry_bar_index := 0, pyramid_count := 1 } }) ∧
    0 ≤ (BacktestBroker.forceClose 10000 0 5 "crypto"
      { cash_cents := 0, position := some
          { symbol := "BTC", market := "crypto", entry_price_cents := 10040,
            quantity_cents := 5000, stop_loss_cents := 9950, strategy := "t",
            entry_time := 0, entry_bar_index := 0, pyramid_count := 1 } }).cash_cents := by
  have h := C8_cash_never_negative none 10100 9900 10000 0 5 10000 "r" "crypto"
    { cash_cents := 0, position := some
        { symbol := "BTC", market := "crypto", entry_price_cents := 10040,
          quantity_cents := 5000, stop_loss_cents := 9950, strategy := "t",
          entry_time := 0, entry_bar_index := 0, pyramid_count := 1 } }
    (by constructor
        · decide
        · intro pos hp
          simp only [Option.mem_def, Option.some.injEq] at hp
          subst hp
          refine ⟨by decide, by decide, by decide⟩)
    (by intro s hs2; simp at hs2) (by decide)
  exact ⟨h.1, h.2.1.1⟩

/-- `_open_position` never touches the trade log or the equity curve. -/
theorem openPosition_frame (sig : Signal) (bar_time bar_index : ℤ) (market : String)
    (b : BacktestBroker) :
    (BacktestBroker.openPosition sig bar_time bar_index market b).closed_trades =
        b.closed_trades ∧
      (BacktestBroker.openPosition sig bar_time bar_index market b).equity_curve =
        b.equity_curve := by
  unfold BacktestBroker.openPosition
  split
  · exact ⟨rfl, rfl⟩
  · dsimp only
    split
    · first
      | exact ⟨rfl, rfl⟩
      | simp
    · first
      | exact ⟨rfl, rfl⟩
      | simp

/-- `_add_to_position` never touches the trade log or the equity curve. -/
theorem addToPosition_frame (sig : Signal) (bar_time bar_index : ℤ) (market : String)
    (b : BacktestBroker) :
    (BacktestBroker.addToPosition sig bar_time bar_index market b).closed_trades =
        b.closed_trades ∧
      (BacktestBroker.addToPosition sig bar_time bar_index market b).equity_curve =
        b.equity_curve := by
  unfold BacktestBroker.addToPosition
  cases hbp : b.position with
  | none => simp [hbp]
  | some pos =>
      simp only [hbp]
      split
      · first
        | exact ⟨rfl, rfl⟩
        | simp
      · first
        | exact ⟨rfl, rfl⟩
        | simp

/-- What `_close_position` does with a held position: it appends exactly
the one trade record built from the position and the fee-adjusted fill,
clears the position, and leaves the equity curve alone. -/
theorem closePosition_trades (price_cents bar_time bar_index : ℤ) (reason market : String)
    (b : BacktestBroker) (pos : Position) (hbp : b.position = some pos) :
    (BacktestBroker.closePosition price_cents bar_time bar_index reason market b).closed_trades
        = b.closed_trades ++
          [{ symbol := pos.symbol, market := pos.market,
             entry_price_cents := pos.entry_price_cents,
             exit_price_cents := pytrunc ((price_cents : ℚ) * (1 - b.getFeeRate market)),
             quantity_cents := pos.quantity_cents,
             pnl_cents :=
               if pos.entry_price_cents > 0 then
                 pytrunc (((pos.quantity_cents *
                     (pytrunc ((price_cents : ℚ) * (1 - b.getFeeRate market)) -
                       pos.entry_price_cents) : ℤ) : ℚ) /
                   ((pos.entry_price_cents : ℤ) : ℚ))
               else 0,
             entry_time := pos.entry_time, exit_time := bar_time,
             exit_reason := reason, strategy := pos.strategy,
             holding_bars := bar_index - pos.entry_bar_index }] ∧
      (BacktestBroker.closePosition price_cents bar_time bar_index reason market b).position
        = none ∧
      (BacktestBroker.closePosition price_cents bar_time bar_index reason market b).equity_curve
        = b.equity_curve := by
  simp only [BacktestBroker.closePosition, hbp]
  refine ⟨?_, ?_, ?_⟩ <;>
    first
    | rfl
    | simp

/-- C7: the order of operations inside `process_bar`. For every broker
state, bar and optional signal: (1) if a position is held and the bar low
is at or below its stop, the position is closed at the stop price with
reason `stop_loss`, whatever the signal — and that is the only trade the
bar can record; (2) with a held position whose stop is not breached, a
sell signal makes the bar equal to a `signal`-close at the signal price
followed by the equity snapshot; (3) a buy signal opens when no position
is held and pyramid-adds when one is held (stop not breached); (4) every
call appends exactly one equity snapshot, whose equity equals cash plus
the mark-to-market position value at the bar close. -/
theorem C7_process_bar_order (signal : Option Signal)
    (bar_high bar_low bar_close bar_time bar_index : ℤ)
    (market : String) (b : BacktestBroker) :
    ((BacktestBroker.processBar signal bar_high bar_low bar_close bar_time bar_index
        market b).equity_curve =
      b.equity_curve ++
        [{ timestamp := bar_time,
           equity_cents := (BacktestBroker.processBar signal bar_high bar_low bar_close
             bar_time bar_index market b).getEquityCents bar_close,
           cash_cents := (BacktestBroker.processBar signal bar_high bar_low bar_close
             bar_time bar_index market b).cash_cents }]) ∧
    (∀ pos ∈ b.position, bar_low ≤ pos.stop_loss_cents → ∃ tr,
      (BacktestBroker.processBar signal bar_high bar_low bar_close bar_time bar_index
          market b).closed_trades = b.closed_trades ++ [tr] ∧
        tr.exit_reason = "stop_loss" ∧
        tr.exit_price_cents =
          pytrunc ((pos.stop_loss_cents : ℚ) * (1 - b.getFeeRate market))) ∧
    (∀ pos ∈ b.position, ¬ bar_low ≤ pos.stop_loss_cents → ∀ s ∈ signal,
      s.action = "sell" →
        BacktestBroker.processBar signal bar_high bar_low bar_close bar_time bar_index
            market b =
          BacktestBroker.recordEquity bar_close bar_time
            (BacktestBroker.closePosition s.price_cents bar_time bar_index
              "signal" market b)) ∧
    (b.position = none → ∀ s ∈ signal, s.action = "buy" →
      BacktestBroker.processBar signal bar_high bar_low bar_close bar_time bar_index
          market b =
        BacktestBroker.recordEquity bar_close bar_time
          (BacktestBroker.openPosition s bar_time bar_index market b)) ∧
    (∀ pos ∈ b.position, ¬ bar_low ≤ pos.stop_loss_cents → ∀ s ∈ signal,
      s.action = "buy" →
        BacktestBroker.processBar signal bar_high bar_low bar_close bar_time bar_index
            market b =
          BacktestBroker.recordEquity bar_close bar_time
            (BacktestBroker.addToPosition s bar_time bar_index market b)) := by
  refine ⟨?_, ?_, ?_, ?_, ?_⟩
  · -- (4) exactly one snapshot, equal to cash + mark-to-market
    unfold BacktestBroker.processBar
    set b2 := BacktestBroker.handleSignal signal bar_time bar_index market
      (BacktestBroker.stopLossCheck bar_low bar_time bar_index market b) with hb2
    have hcurve : b2.equity_curve = b.equity_curve := by
      rw [hb2]
      have h1 : (BacktestBroker.stopLossCheck bar_low bar_time bar_index market b).equity_curve
          = b.equity_curve := by
        unfold BacktestBroker.stopLossCheck
        cases hbp : b.position with
        | none => simp only
        | some pos =>
            simp only
            split
            · exact (closePosition_trades pos.stop_loss_cents bar_time bar_index
                "stop_loss" market b pos hbp).2.2
            · rfl
      set b1 := BacktestBroker.stopLossCheck bar_low bar_time bar_index market b with hb1
      unfold BacktestBroker.handleSignal
      cases hsig : signal with
      | none => exact h1
      | some s =>
          simp only
          split
          · cases hbp1 : b1.position with
            | none => simp [BacktestBroker.closePosition, hbp1, h1]
            | some pos1 =>
                rw [(closePosition_trades s.price_cents bar_time bar_index
                  "signal" market b1 pos1 hbp1).2.2, h1]
          · split
            · rw [(openPosition_frame s bar_time bar_index market b1).2, h1]
            · split
              · rw [(addToPosition_frame s bar_time bar_index market b1).2, h1]
              · exact h1
    unfold BacktestBroker.recordEquity
    rw [hcurve]
    rfl
  · -- (1) stop close first, whatever the signal
    intro pos hmem hstop
    rw [Option.mem_def] at hmem
    have hsc : BacktestBroker.stopLossCheck bar_low bar_time bar_index market b =
        BacktestBroker.closePosition pos.stop_loss_cents bar_time bar_index
          "stop_loss" market b := by
      unfold BacktestBroker.stopLossCheck
      simp only [hmem]
      rw [if_pos hstop]
    have hct := closePosition_trades pos.stop_loss_cents bar_time bar_index
      "stop_loss" market b pos hmem
    have hfinal : (BacktestBroker.processBar signal bar_high bar_low bar_close
        bar_time bar_index market b).closed_trades =
        (BacktestBroker.closePosition pos.stop_loss_cents bar_time bar_index
          "stop_loss" market b).closed_trades := by
      unfold BacktestBroker.processBar
      rw [hsc]
      set bc := BacktestBroker.closePosition pos.stop_loss_cents bar_time bar_index
        "stop_loss" market b with hbc
      have htr : (BacktestBroker.handleSignal signal bar_time bar_index market bc).closed_trades
          = bc.closed_trades := by
        unfold BacktestBroker.handleSignal
        cases hsig : signal with
        | none => rfl
        | some s =>
            simp only
            split
            · next hcond =>
                exfalso
                rw [hbc, hct.2.1] at hcond
                simp at hcond
            · split
              · exact (openPosition_frame s bar_time bar_index market bc).1
              · split
                · next hcond =>
                    exfalso
                    rw [hbc, hct.2.1] at hcond
                    simp at hcond
                · rfl
      unfold BacktestBroker.recordEquity
      simp only
      rw [htr]
    rw [hct.1] at hfinal
    exact ⟨_, hfinal, rfl, rfl⟩
  · -- (2) sell + held position, stop not breached: close at signal price
    intro pos hmem hstop s hsig haction
    rw [Option.mem_def] at hmem hsig
    unfold BacktestBroker.processBar
    have hsc : BacktestBroker.stopLossCheck bar_low bar_time bar_index market b = b := by
      unfold BacktestBroker.stopLossCheck
      simp only [hmem]
      rw [if_neg hstop]
    rw [hsc]
    unfold BacktestBroker.handleSignal
    rw [hsig]
    simp only [haction, hmem]
    simp
  · -- (3a) buy + no position: open
    intro hnone s hsig haction
    rw [Option.mem_def] at hsig
    unfold BacktestBroker.processBar
    have hsc : BacktestBroker.stopLossCheck bar_low bar_time bar_index market b = b := by
      unfold BacktestBroker.stopLossCheck
      simp only [hnone]
    rw [hsc]
    unfold BacktestBroker.handleSignal
    rw [hsig]
    simp only [haction, hnone]
    simp
  · -- (3b) buy + held position, stop not breached: pyramid-add
    intro pos hmem hstop s hsig haction
    rw [Option.mem_def] at hmem hsig
    unfold BacktestBroker.processBar
    have hsc : BacktestBroker.stopLossCheck bar_low bar_time bar_index market b = b := by
      unfold BacktestBroker.stopLossCheck
      simp only [hmem]
      rw [if_neg hstop]
    rw [hsc]
    unfold BacktestBroker.handleSignal
    rw [hsig]
    simp only [haction, hmem]
    simp

/-- C10: a buy whose effective quantity
`min(min(requested, max_position_size), cash)` is below 100 cents is a
silent no-op in both `_open_position` and `_add_to_position`: the whole
broker state — cash, fees, position, trade log, equity curve — is
returned unchanged. -/
theorem C10_small_buy_noop (sig : Signal) (bar_time bar_index : ℤ) (market : String)
    (b : BacktestBroker)
    (h : min (min (sig.data_quantity_cents.getD 100) b.max_position_size_cents)
      b.cash_cents < 100) :
    BacktestBroker.openPosition sig bar_time bar_index market b = b ∧
    BacktestBroker.addToPosition sig bar_time bar_index market b = b := by
  constructor
  · unfold BacktestBroker.openPosition
    split
    · rfl
    · dsimp only
      split
      · rfl
      · next hmin => exact absurd h hmin
  · unfold BacktestBroker.addToPosition
    cases hbp : b.position with
    | none => simp only [hbp]
    | some pos =>
        simp only [hbp]
        split
        · rfl
        · next hmin => exact absurd h hmin

/-- Prefixes of agreeing prefixes agree. -/
theorem take_eq_of_take_eq {α : Type} {l₁ l₂ : List α} {m : ℕ}
    (h : l₁.take m = l₂.take m) {k : ℕ} (hk : k ≤ m) :
    l₁.take k = l₂.take k := by
  have h1 : l₁.take k = (l₁.take m).take k := by
    rw [List.take_take, min_eq_left hk]
  have h2 : l₂.take k = (l₂.take m).take k := by
    rw [List.take_take, min_eq_left hk]
  rw [h1, h2, h]

/-- The engine state before bar `i` only reads `candles.take i`. -/
theorem engineStateBefore_take_eq {σ : Type} (gen : σ → List Bar → σ × List Signal)
    (market : String) (init : σ × BacktestBroker) (df₁ df₂ : List Bar) :
    ∀ k, df₁.take k = df₂.take k →
      engineStateBefore gen market df₁ init k = engineStateBefore gen market df₂ init k := by
  intro k
  induction k with
  | zero => intro _; rfl
  | succ n ih =>
      intro h
      unfold engineStateBefore
      split
      · rfl
      · rw [ih (take_eq_of_take_eq h (by omega)), h]

/-- C3: no look-ahead in the walk-forward loop. For every strategy (any
state type and `generate_signals` function), any market, any initial
strategy/broker state and any bar index `i` at or beyond the warm-up:
two candle datasets that agree on `candles[0..i]` give the identical
selected signal and the identical strategy and broker state at bar `i` —
mutating candles after index `i` never changes the decision at `i`. -/
theorem C3_no_lookahead {σ : Type} (gen : σ → List Bar → σ × List Signal)
    (market : String) (init : σ × BacktestBroker) (df₁ df₂ : List Bar) (i : ℕ)
    (hwarm : MIN_WARMUP_BARS ≤ i) (heq : df₁.take (i + 1) = df₂.take (i + 1)) :
    engineDecisionAt gen market df₁ init i = engineDecisionAt gen market df₂ init i := by
  unfold engineDecisionAt
  rw [engineStateBefore_take_eq gen market init df₁ df₂ i
    (take_eq_of_take_eq heq (by omega)), heq]

/-- Witness for C3: the turtle-crypto strategy on two concrete datasets
that agree up to bar 30 and differ afterwards — the decision at bar 30
is identical. -/
theorem C3_no_lookahead_witness :
    engineDecisionAt (turtleCryptoGen "BTC" "crypto") "crypto" (c2df.take 32)
        ({}, {}) 30 =
      engineDecisionAt (turtleCryptoGen "BTC" "crypto") "crypto"
        (c2df.take 31 ++ [oddBar]) ({}, {}) 30 :=
  C3_no_lookahead (turtleCryptoGen "BTC" "crypto") "crypto" ({}, {})
    (c2df.take 32) (c2df.take 31 ++ [oddBar]) 30 (by decide) (by decide)

/-- C9: the metrics computer and the risk gate disagree on break-even
trades. Appending a trade with `pnl = 0` to any trade list leaves the
winning-trade count, gross-profit-based profit factor unchanged, adds one
losing trade, dilutes the win rate to `wins / (n + 1) * 100`, and extends
the current loss streak by one; while `record_trade_result(0)` resets the
risk gate's consecutive-loss counter to 0 (memory and store). -/
theorem C9_breakeven_trade_divergence (ts : List ClosedTrade) (t : ClosedTrade)
    (h : t.pnl_cents = 0) :
    (computeTradeStats (ts ++ [t])).winning_trades =
        (computeTradeStats ts).winning_trades ∧
      (computeTradeStats (ts ++ [t])).losing_trades =
        (computeTradeStats ts).losing_trades + 1 ∧
      (computeTradeStats (ts ++ [t])).profit_factor =
        (computeTradeStats ts).profit_factor ∧
      (computeTradeStats (ts ++ [t])).win_rate_pct =
        ((computeTradeStats ts).winning_trades : ℚ) / ((ts.length : ℚ) + 1) * 100 ∧
      (computeTradeStats (ts ++ [t])).max_consecutive_losses =
        max (tradeStreaks ts).2.1 ((tradeStreaks ts).2.2.2 + 1) ∧
      ∀ (rm : RiskManager) (now : ℤ),
        (RiskManager.recordTradeResult settings now 0 rm).mem.consecutive_losses = 0 ∧
        (RiskManager.recordTradeResult settings now 0 rm).store.consecutive_losses = 0 := by
  have hw : (ts ++ [t]).filter (fun tr => tr.pnl_cents > 0) =
      ts.filter (fun tr => tr.pnl_cents > 0) := by
    simp [List.filter_append, h]
  have hl : (ts ++ [t]).filter (fun tr => tr.pnl_cents ≤ 0) =
      ts.filter (fun tr => tr.pnl_cents ≤ 0) ++ [t] := by
    simp [List.filter_append, h]
  have hstreak : tradeStreaks (ts ++ [t]) =
      ((tradeStreaks ts).1, max (tradeStreaks ts).2.1 ((tradeStreaks ts).2.2.2 + 1),
        0, (tradeStreaks ts).2.2.2 + 1) := by
    unfold tradeStreaks
    rw [List.foldl_append]
    simp [h]
  have hne : computeTradeStats (ts ++ [t]) = computeTradeStatsBody (ts ++ [t]) := by
    cases ts <;> rfl
  refine ⟨?_, ?_, ?_, ?_, ?_, ?_⟩
  · rw [hne]
    unfold computeTradeStatsBody
    simp only [hw]
    cases ts with
    | nil => simp [computeTradeStats]
    | cons a l => rfl
  · rw [hne]
    unfold computeTradeStatsBody
    simp only [hl, List.length_append]
    cases ts with
    | nil => simp [computeTradeStats]
    | cons a l => rfl
  · rw [hne]
    unfold computeTradeStatsBody
    simp only [hw, hl, List.map_append, List.sum_append, List.map_cons, List.map_nil,
      List.sum_cons, List.sum_nil, h, add_zero, Int.cast_zero]
    cases ts with
    | nil => simp [computeTradeStats]
    | cons a l =>
        first
        | rfl
        | norm_num [computeTradeStats, computeTradeStatsBody]
  · rw [hne]
    unfold computeTradeStatsBody
    simp only [hw, List.length_append, List.length_cons, List.length_nil]
    cases ts with
    | nil => simp [computeTradeStats]
    | cons a l =>
        show ((List.filter _ (a :: l)).length : ℚ) / (((a :: l).length + 1 : ℕ) : ℚ) * 100 = _
        push_cast
        rfl
  · rw [hne]
    unfold computeTradeStatsBody
    simp only [hstreak]
  · intro rm now
    unfold RiskManager.recordTradeResult RiskManager.saveState
    norm_num

/-- Witness for C9: one winning trade followed by a break-even trade —
the metrics count the break-even trade as the single losing trade while
the gate resets its loss counter on it. -/
theorem C9_breakeven_trade_witness :
    (computeTradeStats
        [{ symbol := "BTC", market := "crypto", entry_price_cents := 10000,
           exit_price_cents := 11000, quantity_cents := 5000, pnl_cents := 500,
           entry_time := 0, exit_time := 1, exit_reason := "signal",
           strategy := "t", holding_bars := 1 },
         { symbol := "BTC", market := "crypto", entry_price_cents := 10000,
           exit_price_cents := 10000, quantity_cents := 5000, pnl_cents := 0,
           entry_time := 2, exit_time := 3, exit_reason := "signal",
           strategy := "t", holding_bars := 1 }]).losing_trades = 1 ∧
    (RiskManager.recordTradeResult settings 9 0 rmPaused).mem.consecutive_losses = 0 := by
  have h := C9_breakeven_trade_divergence
    [{ symbol := "BTC", market := "crypto", entry_price_cents := 10000,
       exit_price_cents := 11000, quantity_cents := 5000, pnl_cents := 500,
       entry_time := 0, exit_time := 1, exit_reason := "signal",
       strategy := "t", holding_bars := 1 }]
    { symbol := "BTC", market := "crypto", entry_price_cents := 10000,
      exit_price_cents := 10000, quantity_cents := 5000, pnl_cents := 0,
      entry_time := 2, exit_time := 3, exit_reason := "signal",
      strategy := "t", holding_bars := 1 } rfl
  exact ⟨by decide, (h.2.2.2.2.2 rmPaused 9).1⟩

/-- C2 counterexample: on the spec's input (70 flat bars at close 10000,
then +50 per bar to 10500, entry_period 15, crypto parameters), the
walk-forward Turtle run does not emit exactly one buy of strength 0.7:
it emits three buys, and the entry has strength 0.9 because the flat
history makes the 40-bar System-2 channel coincide with the 15-bar
channel, so the stronger System-2 breakout fires on the same bar. -/
theorem C2_turtle_strength_counterexample :
    ¬ (c2buys.length = 1 ∧ ∀ p ∈ c2buys, p.2.strength = 7/10) := by
  decide

/-- C2 amended: on that input the run emits its first buy on bar 70 —
the first bar whose close exceeds the prior 15-bar high — as a System-2
entry of strength 0.9 with stop 10043 = max(1, int(close − 2.5·ATR)),
followed by two pyramid buys of strength 0.5 on bars 71 and 72 (stops
10087 and 10131), and no other buys. -/
theorem C2_turtle_breakout_scenario :
    c2buys.map (fun p => (p.1, p.2.strength, p.2.stop_loss_cents)) =
        [(70, 9/10, 10043), (71, 1/2, 10087), (72, 1/2, 10131)] ∧
      closeExceedsPriorHigh 15 c2df 70 = true ∧
      (∀ j, j < 70 → closeExceedsPriorHigh 15 c2df j = false) ∧
      (atrAt c2df 70).map (fun a => max 1 (pytrunc ((10050 : ℚ) - 5/2 * a))) =
        some 10043 := by
  refine ⟨by decide, by decide, by decide, by decide⟩

/-- Witness for C10: a requested quantity of 50 cents is below the $1
minimum, so the buy changes nothing. -/
theorem C10_small_buy_noop_witness :
    BacktestBroker.openPosition
        { symbol := "BTC", market := "crypto", action := "buy", strength := 7/10,
          stop_loss_cents := 9000, price_cents := 10000, reason := "entry",
          strategy_name := "turtle_crypto", data_quantity_cents := some 50 }
        0 0 "crypto" {} = {} ∧
      BacktestBroker.addToPosition
        { symbol := "BTC", market := "crypto", action := "buy", strength := 7/10,
          stop_loss_cents := 9000, price_cents := 10000, reason := "entry",
          strategy_name := "turtle_crypto", data_quantity_cents := some 50 }
        0 0 "crypto" {} = {} :=
  C10_small_buy_noop _ 0 0 "crypto" {} (by decide)

end FlashTrade
